import Mathlib

/-!
Shallow embedding of the NewsScrapper repository
(`rss_news_scraper.py`, `category_news_scraper.py`) and proofs about the
claims of its specification.

Text is modelled as `List Char` (`Str`), so that Python string slicing,
stripping and concatenation become ordinary list operations.  Network and
library effects (HTTP fetches, `feedparser`, `BeautifulSoup` parsing) are
modelled as explicit inputs: a fetched page or a parsed feed entry is a
value handed to the embedded function, and universally quantified in the
theorems.
-/

namespace NewsScrapper

/-- Text: Python strings as lists of characters. -/
abbrev Str := List Char

/-- Python whitespace characters (the ASCII ones recognised by `str.strip`,
`str.split` and the regex class `\s`). -/
def isPyWs (c : Char) : Bool :=
  c == ' ' || c == '\t' || c == '\n' || c == '\r' || c == '\x0b' || c == '\x0c'

/-- Python `str.lstrip()`. -/
def pylstrip (s : Str) : Str := s.dropWhile isPyWs

/-- Python `str.rstrip()`. -/
def pyrstrip (s : Str) : Str := (s.reverse.dropWhile isPyWs).reverse

/-- Python `str.strip()`. -/
def pystrip (s : Str) : Str := pyrstrip (pylstrip s)

/-- ASCII lowercasing, modelling Python `str.lower()` on the ASCII inputs
this repository manipulates. -/
def toLowerStr (s : Str) : Str := s.map Char.toLower

/-- Python `a or b` on strings: `b` when `a` is empty. -/
def pyOr (a b : Str) : Str := if a = [] then b else a

/-- `clamp` from `rss_news_scraper.py` lines 55-57:
`s = s.strip(); return (s if len(s) <= n else s[:n].rstrip() + '...')`. -/
def clamp (s : Str) (n : Nat) : Str :=
  let t := pystrip s
  if t.length ≤ n then t else pyrstrip (t.take n) ++ ("...".data)

/-- The inline content cap of `category_news_scraper.py` lines 243-244 and
314-315: `if len(content) > 3000: content = content[:3000] + "..."`. -/
def capContent3000 (s : Str) : Str :=
  if s.length > 3000 then s.take 3000 ++ ("...".data) else s

example : clamp ("  hi  ".data) 300 = "hi".data := by decide

example : pystrip (" a b ".data) = "a b".data := by decide

/-- Scan for the first `'>'`; on success return the remainder after it. -/
def scanClose : Str → Option Str
  | [] => none
  | c :: r => if c = '>' then some r else scanClose r

theorem scanClose_length {s r : Str} (h : scanClose s = some r) :
    r.length < s.length := by
  induction s with
  | nil => simp [scanClose] at h
  | cons c t ih =>
    by_cases hc : c = '>'
    · simp [scanClose, hc] at h
      simp [← h]
    · simp [scanClose, hc] at h
      have := ih h
      simp; omega

/-- Given the text after a `'<'`, the remainder after the matching `'>'` of a
`<[^>]+>` match, when one exists (at least one non-`'>'` character before the
first `'>'`). -/
def tagRemainder : Str → Option Str
  | [] => none
  | c :: rest => if c = '>' then none else scanClose rest

theorem tagRemainder_length {s r : Str} (h : tagRemainder s = some r) :
    r.length < s.length := by
  cases s with
  | nil => simp [tagRemainder] at h
  | cons c rest =>
    by_cases hc : c = '>'
    · simp [tagRemainder, hc] at h
    · simp [tagRemainder, hc] at h
      have := scanClose_length h
      simp; omega

/-- `re.sub(r'<[^>]+>', '', text)` from `clean_text`
(`rss_news_scraper.py` line 44, `category_news_scraper.py` line 47), written
with an explicit fuel so the recursion is structural; every step consumes at
least one character, so fuel `s.length` computes the full scan. -/
def stripTagsF : Nat → Str → Str
  | _, [] => []
  | 0, s => s
  | fuel + 1, c :: rest =>
    if c = '<' then
      match tagRemainder rest with
      | some r => stripTagsF fuel r
      | none => c :: stripTagsF fuel rest
    else c :: stripTagsF fuel rest

def stripTags (s : Str) : Str := stripTagsF s.length s

/-- Python `str.replace(pat, rep)`: leftmost, non-overlapping occurrences
(fuel-structured; `pat` is never empty in this development). -/
def replaceAllF (pat rep : Str) : Nat → Str → Str
  | _, [] => []
  | 0, s => s
  | fuel + 1, c :: rest =>
    if pat ≠ [] ∧ pat.isPrefixOf (c :: rest) = true then
      rep ++ replaceAllF pat rep fuel ((c :: rest).drop pat.length)
    else
      c :: replaceAllF pat rep fuel rest

def replaceAll (pat rep : Str) (s : Str) : Str := replaceAllF pat rep s.length s

/-- The fixed HTML-entity decoding chain of `clean_text`
(`category_news_scraper.py` lines 48-54).  The `rss_news_scraper.py` copy is
byte-identical except that its replacement characters for `&#8211;`/`&#8212;`
are a mojibake three-character sequence; no claim depends on those targets. -/
def decodeEntities (s : Str) : Str :=
  replaceAll ("&#8212;".data) ("—".data)
    (replaceAll ("&#8211;".data) ("–".data)
      (replaceAll ("&#8217;".data) ("'".data)
        (replaceAll ("&quot;".data) ("\"".data)
          (replaceAll ("&gt;".data) (">".data)
            (replaceAll ("&lt;".data) ("<".data)
              (replaceAll ("&amp;".data) ("&".data) s))))))

/-- `re.sub(r'\s+', ' ', ·)`: collapse each maximal whitespace run to one
space (fuel-structured). -/
def collapseWsF : Nat → Str → Str
  | _, [] => []
  | 0, s => s
  | fuel + 1, c :: rest =>
    if isPyWs c then ' ' :: collapseWsF fuel (rest.dropWhile isPyWs)
    else c :: collapseWsF fuel rest

def collapseWs (s : Str) : Str := collapseWsF s.length s

/-- `clean_text` (`rss_news_scraper.py` lines 41-53,
`category_news_scraper.py` lines 44-56): empty in, empty out; otherwise strip
HTML tags, decode the fixed entity set, then collapse whitespace on the
stripped text. -/
def clean_text (s : Str) : Str :=
  if s = [] then []
  else collapseWs (pystrip (decodeEntities (stripTags s)))

example : clean_text ("<b>a</b>  &amp;\n\nb".data) = "a & b".data := by decide

/-- `NewsArticle` of `rss_news_scraper.py` (lines 274-297). -/
structure NewsArticle where
  title : Str
  description : Str
  url : Str
  source : Str
  published_date : Option Str
  author : Option Str
  content : Str
deriving DecidableEq, Repr

/-- `NewsArticle` of `category_news_scraper.py` (lines 192-216), which also
carries a category. -/
structure CatArticle where
  title : Str
  description : Str
  url : Str
  source : Str
  category : Str
  published_date : Option Str
  author : Option Str
  content : Str
deriving DecidableEq, Repr

/-- The AI keyword list of `RSSNewsScraper.is_ai_related`
(`rss_news_scraper.py` lines 531-536). -/
def ai_keywords : List Str :=
  ["artificial intelligence", " ai ", "machine learning", " ml ",
   "deep learning", "neural network", "chatgpt", "gpt", "llm",
   "large language model", "automation", "robotics", "computer vision",
   "nlp", "natural language", "generative ai", "openai", "anthropic",
   "claude", "bard", "gemini", "mistral"].map String.data

/-- Python `pat in s` on strings: `pat` occurs as a contiguous substring. -/
def containsSubstr (pat s : Str) : Bool :=
  s.tails.any (fun t => pat.isPrefixOf t)

/-- `RSSNewsScraper.is_ai_related` (lines 530-538):
`text = f" {title} {description} ".lower()`; substring match against the
keyword list. -/
def is_ai_related (title description : Str) : Bool :=
  let text := toLowerStr ((' ' :: title) ++ (' ' :: description) ++ [' '])
  ai_keywords.any (fun k => containsSubstr k text)

/-- The filter condition of `scrape_source` line 577:
`ai_only and cfg['category'].lower().startswith('technology')`. -/
def techFilterActive (aiOnly : Bool) (category : Str) : Bool :=
  aiOnly && ("technology".data.isPrefixOf (toLowerStr category))

/-- The post-filter of `scrape_source` lines 577-578: under AI-only mode and
a general-technology category, keep only AI-related articles. -/
def postFilter (aiOnly : Bool) (category : Str)
    (arts : List NewsArticle) : List NewsArticle :=
  if techFilterActive aiOnly category then
    arts.filter (fun a => is_ai_related a.title a.description)
  else arts

/-- Outcome of running one strategy inside the `try` of `scrape_source`:
either the article list the strategy produced, or an uncaught exception
(logged and treated as failure by the `except` branch). -/
inductive StratResult where
  | ok (arts : List NewsArticle)
  | error
deriving DecidableEq, Repr

/-- The strategy loop of `RSSNewsScraper.scrape_source` (lines 563-590),
paired with the number of strategies that were executed.  The per-strategy
article lists (what `_run_rss`/`_run_autodiscover`/`_run_scrape` would
return) are the input; a strategy whose post-filtered list is non-empty
returns immediately, otherwise the loop continues; after the last strategy
the result is `[]`. -/
def scrape_source_trace (aiOnly : Bool) (category : Str) :
    List StratResult → List NewsArticle × Nat
  | [] => ([], 0)
  | StratResult.error :: rest =>
    let r := scrape_source_trace aiOnly category rest
    (r.1, r.2 + 1)
  | StratResult.ok arts :: rest =>
    let f := postFilter aiOnly category arts
    if f ≠ [] then (f, 1)
    else
      let r := scrape_source_trace aiOnly category rest
      (r.1, r.2 + 1)

/-- The value `scrape_source` returns. -/
def scrape_source (aiOnly : Bool) (category : Str)
    (results : List StratResult) : List NewsArticle :=
  (scrape_source_trace aiOnly category results).1

lemma scrape_source_trace_all_fail (aiOnly : Bool) (cat : Str)
    (results : List (List NewsArticle))
    (h : ∀ l, l ∈ results → postFilter aiOnly cat l = []) :
    scrape_source_trace aiOnly cat (results.map StratResult.ok)
      = ([], results.length) := by
  induction results with
  | nil => simp [scrape_source_trace]
  | cons l rest ih =>
    have hl : postFilter aiOnly cat l = [] := h l (List.mem_cons_self _ _)
    have hrest := ih (fun x hx => h x (List.mem_cons_of_mem _ hx))
    simp [scrape_source_trace, hl, hrest]

lemma scrape_source_trace_first_ok (aiOnly : Bool) (cat : Str) :
    ∀ (results : List (List NewsArticle)) (i : Nat) (hi : i < results.length),
    (∀ (j : Nat) (hj : j < results.length), j < i →
        postFilter aiOnly cat (results.get ⟨j, hj⟩) = []) →
    postFilter aiOnly cat (results.get ⟨i, hi⟩) ≠ [] →
    scrape_source_trace aiOnly cat (results.map StratResult.ok)
      = (postFilter aiOnly cat (results.get ⟨i, hi⟩), i + 1)
  | [], i, hi, _, _ => by simp at hi
  | l :: rest, 0, hi, _, hne => by
    simp only [List.get] at hne ⊢
    simp [scrape_source_trace, hne]
  | l :: rest, i + 1, hi, hprev, hne => by
    have hl : postFilter aiOnly cat l = [] := by
      have := hprev 0 (by simp) (Nat.succ_pos i)
      simpa using this
    have hi' : i < rest.length := by simpa using hi
    have ih := scrape_source_trace_first_ok aiOnly cat rest i hi'
      (fun j hj hji => by
        have := hprev (j + 1) (by simpa using Nat.succ_lt_succ hj)
          (Nat.succ_lt_succ hji)
        simpa using this)
      (by simpa using hne)
    simp only [List.get] at hne ⊢
    simp [scrape_source_trace, hl, ih]

/-- **C1.**  For every source with configured strategy list, `scrape_source`
executes strategies in declared order; as soon as some strategy yields at
least one article surviving any active filter, it returns exactly that
strategy's (surviving) articles and executes no later strategy (first
conjunct: trace count `i + 1`); if every strategy yields zero surviving
articles, the result is the empty list and all `n` strategies ran. -/
theorem c1_strategy_first_success (aiOnly : Bool) (cat : Str)
    (results : List (List NewsArticle)) :
    (∀ (i : Nat) (hi : i < results.length),
      (∀ (j : Nat) (hj : j < results.length), j < i →
          postFilter aiOnly cat (results.get ⟨j, hj⟩) = []) →
      postFilter aiOnly cat (results.get ⟨i, hi⟩) ≠ [] →
      scrape_source_trace aiOnly cat (results.map StratResult.ok)
        = (postFilter aiOnly cat (results.get ⟨i, hi⟩), i + 1))
    ∧ ((∀ l, l ∈ results → postFilter aiOnly cat l = []) →
      scrape_source_trace aiOnly cat (results.map StratResult.ok)
        = ([], results.length)) :=
  ⟨fun i hi hprev hne =>
    scrape_source_trace_first_ok aiOnly cat results i hi hprev hne,
   scrape_source_trace_all_fail aiOnly cat results⟩

/-- A sample article used in concrete instantiations. -/
def sampleArticle (t u : Str) : NewsArticle :=
  { title := t, description := [], url := u, source := "Sample".data,
    published_date := none, author := none, content := [] }

/-- Witness for C1: with three strategies whose outputs are
`[[], [a], [b]]` and no active filter, the orchestrator returns `[a]` after
executing exactly two strategies. -/
theorem c1_strategy_first_success_witness :
    scrape_source_trace false ("News".data)
        ([[], [sampleArticle ("A headline".data) ("u1".data)],
          [sampleArticle ("B headline".data) ("u2".data)]].map StratResult.ok)
      = ([sampleArticle ("A headline".data) ("u1".data)], 2) :=
  (c1_strategy_first_success false ("News".data) _).1 1 (by decide)
    (fun j hj hji => by
      have hj0 : j = 0 := by omega
      subst hj0
      rfl)
    (by decide)

/-- The spec's example article: a title with no AI keyword, empty
description. -/
def gpuArticle : NewsArticle := sampleArticle ("New GPU card released".data) ("u1".data)

/-- An AI-related article (title contains the keyword `chatgpt`). -/
def aiArticle : NewsArticle := sampleArticle ("ChatGPT update released".data) ("u2".data)

/-- **C6.**  Under AI-only mode with a general-technology category:
`gpuArticle` matches no AI keyword; it is filtered out for a
`Technology` source but kept for an `AI/Technology` source; in general every
keyword-free article is removed by the post-filter; and a strategy whose
articles are all filtered out counts as failed, so the orchestrator proceeds
to the next strategy. -/
theorem c6_ai_only_filter :
    (is_ai_related ("New GPU card released".data) [] = false)
    ∧ (postFilter true ("Technology".data) [gpuArticle] = [])
    ∧ (postFilter true ("AI/Technology".data) [gpuArticle] = [gpuArticle])
    ∧ (∀ (cat : Str) (arts : List NewsArticle) (a : NewsArticle),
        techFilterActive true cat = true → a ∈ arts →
        is_ai_related a.title a.description = false →
        a ∉ postFilter true cat arts)
    ∧ (∀ (cat : Str) (arts : List NewsArticle) (rest : List StratResult),
        techFilterActive true cat = true →
        (∀ a ∈ arts, is_ai_related a.title a.description = false) →
        scrape_source_trace true cat (StratResult.ok arts :: rest)
          = ((scrape_source_trace true cat rest).1,
             (scrape_source_trace true cat rest).2 + 1)) := by
  refine ⟨by decide, by decide, by decide, ?_, ?_⟩
  · intro cat arts a hactive ha hnot hmem
    simp only [postFilter, hactive, if_pos] at hmem
    rw [List.mem_filter] at hmem
    rw [hnot] at hmem
    exact Bool.false_ne_true hmem.2
  · intro cat arts rest hactive hall
    have hfil : arts.filter (fun a => is_ai_related a.title a.description) = [] := by
      rw [List.filter_eq_nil_iff]
      intro a ha
      simp [hall a ha]
    simp [scrape_source_trace, postFilter, hactive, hfil]

/-- Witness for C6: with strategy outputs `[[gpuArticle], [aiArticle]]` and a
`Technology` source under AI-only mode, the first strategy is fully filtered
out and the orchestrator's second strategy supplies the result. -/
theorem c6_ai_only_filter_witness :
    scrape_source_trace true ("Technology".data)
        [StratResult.ok [gpuArticle], StratResult.ok [aiArticle]]
      = ([aiArticle], 2) := by
  have h := c6_ai_only_filter.2.2.2.2 ("Technology".data) [gpuArticle]
    [StratResult.ok [aiArticle]] (by decide)
    (fun a ha => by
      have : a = gpuArticle := by simpa using ha
      subst this
      decide)
  rw [h]
  decide

/-- A parsed feedparser entry as consumed by `parse_feed_once`
(`rss_news_scraper.py` lines 316-349): `entry.get('title','')`,
`entry.get('summary','')`, `entry.get('description','')` and
`entry.get('link','')` as plain strings (missing key = empty string), plus
the already-rendered optional published date (the
`datetime(*published_parsed[:6]).isoformat()` / `updated_parsed` fallback of
lines 330-340, library behaviour modelled as an input) and the raw author
string chosen by the `author`/`authors[0].name` branch of lines 342-346. -/
structure RssFeedEntry where
  title : Str
  summary : Str
  description : Str
  link : Str
  parsedDate : Option Str
  rawAuthor : Option Str
deriving DecidableEq, Repr

/-- The description substitution of `parse_feed_once` line 323:
`re.sub(r'^The post.*?appeared first on.*?\.$', '', description, flags=IGNORECASE)`.
Without MULTILINE/DOTALL the anchored pattern can only match the whole
newline-free string, so the substitution empties the string exactly when it
starts with `The post` (case-insensitive), contains `appeared first on`
after that prefix, and ends in `.`; the newline-freedom conjunct is explicit
(inputs here are `clean_text` outputs, which contain no newline). -/
def stripPostBoilerplate (s : Str) : Str :=
  if ("the post".data.isPrefixOf (toLowerStr s)) = true
      ∧ containsSubstr ("appeared first on".data) ((toLowerStr s).drop 8) = true
      ∧ (toLowerStr s).getLast? = some '.'
      ∧ ¬ '\n' ∈ s
  then [] else s

/-- Line 324: `re.sub(r'^Continue reading.*?$', '', description, IGNORECASE)`:
empties a newline-free string starting with `Continue reading`. -/
def stripContinueReading (s : Str) : Str :=
  if ("continue reading".data.isPrefixOf (toLowerStr s)) = true ∧ ¬ '\n' ∈ s
  then [] else s

/-- The per-entry body of `parse_feed_once` (lines 316-359): clean the title
and apply the `len(title) < 6` guard, build the clamped description, apply
the empty-url guard, and assemble the article.  The full-page content fetch
(`fetch_article_content`) is the input function `fetchContent`. -/
def parse_feed_entry (fetchContent : Str → Str) (sourceName : Str)
    (e : RssFeedEntry) : Option NewsArticle :=
  let title := clean_text e.title
  if title = [] ∨ title.length < 6 then none
  else
    let d0 := clean_text (pyOr e.summary e.description)
    let description :=
      if d0 ≠ [] then
        clamp (pystrip (stripContinueReading (pystrip (stripPostBoilerplate d0)))) 300
      else d0
    if e.link = [] then none
    else some
      { title := title, description := description, url := e.link,
        source := sourceName, published_date := e.parsedDate,
        author := e.rawAuthor.map clean_text,
        content := fetchContent e.link }

/-- `parse_feed_once` (lines 300-366): the first `max_articles` feed entries,
each processed by `parse_feed_entry`; guarded-out entries are skipped. -/
def parse_feed_once (fetchContent : Str → Str) (sourceName : Str)
    (entries : List RssFeedEntry) (maxArticles : Nat) : List NewsArticle :=
  (entries.take maxArticles).filterMap (parse_feed_entry fetchContent sourceName)

/-- What one fetched article page yields inside the loop of
`scrape_listing_to_articles` (lines 404-419): the `extract_meta` fields
(already cleaned / iso-normalised as in `extract_meta`) and the cleaned
extracted content; `none` models `get_soup` returning `None`. -/
structure ListingPage where
  title : Str
  description : Str
  canonical : Str
  published : Option Str
  author : Option Str
  content : Str
deriving DecidableEq, Repr

/-- One iteration body of the loop of `scrape_listing_to_articles`
(lines 403-431): skip on failed fetch or short title, otherwise build the
article with clamped description and `meta["canonical"] or u` as URL. -/
def scrape_listing_step (pages : Str → Option ListingPage) (sourceName : Str)
    (u : Str) : Option NewsArticle :=
  match pages u with
  | none => none
  | some pg =>
    if pg.title = [] ∨ pg.title.length < 6 then none
    else some
      { title := pg.title, description := clamp pg.description 300,
        url := pyOr pg.canonical u, source := sourceName,
        published_date := pg.published, author := pg.author,
        content := pg.content }

/-- The article loop of `scrape_listing_to_articles` (lines 399-436): stop
once `max_articles` articles are collected; a failed URL is skipped and the
loop continues. -/
def scrape_listing_loop (pages : Str → Option ListingPage) (sourceName : Str) :
    Nat → List Str → List NewsArticle
  | _, [] => []
  | maxA, u :: rest =>
    if maxA = 0 then []
    else
      match scrape_listing_step pages sourceName u with
      | none => scrape_listing_loop pages sourceName maxA rest
      | some a => a :: scrape_listing_loop pages sourceName (maxA - 1) rest

/-- A feedparser entry as consumed by `scrape_rss_feed`
(`category_news_scraper.py` lines 229-263): `hasattr` checks become `Option`
fields; `authorName` is `entry.authors[0].get('name','')` when the `authors`
attribute is present and non-empty. -/
structure CatFeedEntry where
  title : Option Str
  summary : Option Str
  link : Option Str
  published : Option Str
  authorName : Option Str
deriving DecidableEq, Repr

/-- The per-entry body of `scrape_rss_feed` (lines 229-263): guard is only
`not title or not url`; content is the extracted page body capped at 3000
characters.  The composition `get_soup` + `extract_main_content` for the
article page is the input `contentOf` (`none` = failed fetch). -/
def cat_rss_entry (contentOf : Str → Option Str) (sourceName category : Str)
    (e : CatFeedEntry) : Option CatArticle :=
  let title := match e.title with | some t => clean_text t | none => []
  let url := e.link.getD []
  if title = [] ∨ url = [] then none
  else some
    { title := title,
      description := match e.summary with | some s => clean_text s | none => [],
      url := url, source := sourceName, category := category,
      published_date := e.published,
      author := e.authorName.map clean_text,
      content := match contentOf url with
        | none => []
        | some c => capContent3000 c }

/-- `scrape_rss_feed` (lines 219-274): first `max_articles` entries through
`cat_rss_entry`. -/
def scrape_rss_feed (contentOf : Str → Option Str) (sourceName category : Str)
    (entries : List CatFeedEntry) (maxArticles : Nat) : List CatArticle :=
  (entries.take maxArticles).filterMap (cat_rss_entry contentOf sourceName category)

/-- What one fetched page yields in the loop of `scrape_website_articles`
(`category_news_scraper.py` lines 305-327): the `extract_meta` fields (title,
description and author cleaned to plain strings, raw optional published date)
plus the extracted main content; `none` models `get_soup` returning `None`. -/
structure SitePage where
  title : Str
  description : Str
  published : Option Str
  author : Str
  content : Str
deriving DecidableEq, Repr

/-- One iteration body of `scrape_website_articles` (lines 305-327): content
capped at 3000, guard `meta["title"] and len(meta["title"]) > 10`. -/
def site_article (pages : Str → Option SitePage) (sourceName category : Str)
    (u : Str) : Option CatArticle :=
  match pages u with
  | none => none
  | some pg =>
    if pg.title ≠ [] ∧ 10 < pg.title.length then
      some
        { title := pg.title, description := pg.description, url := u,
          source := sourceName, category := category,
          published_date := pg.published, author := some pg.author,
          content := capContent3000 pg.content }
    else none

/-- The per-link loop of `scrape_website_articles` (lines 304-335):
`for url in article_links[:max_articles]`, failed units skipped. -/
def scrape_website_articles (pages : Str → Option SitePage)
    (sourceName category : Str) (links : List Str) (maxArticles : Nat) :
    List CatArticle :=
  (links.take maxArticles).filterMap (site_article pages sourceName category)

lemma dropWhile_length_le (p : Char → Bool) (s : Str) :
    (s.dropWhile p).length ≤ s.length :=
  List.Sublist.length_le (List.dropWhile_sublist _)

lemma pyrstrip_length_le (s : Str) : (pyrstrip s).length ≤ s.length := by
  unfold pyrstrip
  calc (s.reverse.dropWhile isPyWs).reverse.length
      = (s.reverse.dropWhile isPyWs).length := List.length_reverse _
    _ ≤ s.reverse.length := dropWhile_length_le _ _
    _ = s.length := List.length_reverse _

lemma clamp_length_le (s : Str) (n : Nat) : (clamp s n).length ≤ n + 3 := by
  unfold clamp
  by_cases h : (pystrip s).length ≤ n
  · simp only [h, if_true]
    omega
  · simp only [h, if_false, List.length_append, List.length_cons,
      List.length_nil]
    have h1 : ((pystrip s).take n).length ≤ n := by
      simp [List.length_take]
    have h2 := pyrstrip_length_le ((pystrip s).take n)
    omega

/-- Every article produced by `scrape_listing_loop` comes from
`scrape_listing_step` on one of the candidate URLs. -/
lemma scrape_listing_loop_mem (pages : Str → Option ListingPage) (src : Str) :
    ∀ (maxA : Nat) (urls : List Str) (a : NewsArticle),
      a ∈ scrape_listing_loop pages src maxA urls →
      ∃ u, u ∈ urls ∧ scrape_listing_step pages src u = some a := by
  intro maxA urls
  induction urls generalizing maxA with
  | nil => intro a ha; simp [scrape_listing_loop] at ha
  | cons u rest ih =>
    intro a ha
    by_cases h0 : maxA = 0
    · simp [scrape_listing_loop, h0] at ha
    · rw [scrape_listing_loop, if_neg h0] at ha
      cases hstep : scrape_listing_step pages src u with
      | none =>
        rw [hstep] at ha
        obtain ⟨v, hv, hva⟩ := ih maxA a ha
        exact ⟨v, List.mem_cons_of_mem _ hv, hva⟩
      | some b =>
        rw [hstep] at ha
        rcases List.mem_cons.mp ha with rfl | hmem
        · exact ⟨u, List.mem_cons_self _ _, hstep⟩
        · obtain ⟨v, hv, hva⟩ := ih (maxA - 1) a hmem
          exact ⟨v, List.mem_cons_of_mem _ hv, hva⟩

/-- **C4.**  The body cap: a body longer than 3000 characters is stored as
exactly its first 3000 characters with `...` appended once (length 3003); a
body of at most 3000 characters is stored unchanged; and both category
pipelines store exactly the capped extracted body. -/
theorem c4_content_hard_cap :
    (∀ s : Str, 3000 < s.length →
        capContent3000 s = s.take 3000 ++ ("...".data)
          ∧ (capContent3000 s).length = 3003)
    ∧ (∀ s : Str, s.length ≤ 3000 → capContent3000 s = s)
    ∧ (∀ (contentOf : Str → Option Str) (src cat : Str)
        (entries : List CatFeedEntry) (maxA : Nat) (a : CatArticle),
        a ∈ scrape_rss_feed contentOf src cat entries maxA →
        a.content = [] ∨
          ∃ c, contentOf a.url = some c ∧ a.content = capContent3000 c)
    ∧ (∀ (pages : Str → Option SitePage) (src cat : Str) (links : List Str)
        (maxA : Nat) (a : CatArticle),
        a ∈ scrape_website_articles pages src cat links maxA →
        ∃ pg, pages a.url = some pg ∧ a.content = capContent3000 pg.content) := by
  refine ⟨?_, ?_, ?_, ?_⟩
  · intro s h
    have hif : capContent3000 s = s.take 3000 ++ ("...".data) := by
      simp only [capContent3000, if_pos (by omega : s.length > 3000)]
    refine ⟨hif, ?_⟩
    rw [hif]
    simp [List.length_take]
    omega
  · intro s h
    simp only [capContent3000]
    rw [if_neg (by omega)]
  · intro contentOf src cat entries maxA a ha
    rw [scrape_rss_feed, List.mem_filterMap] at ha
    obtain ⟨e, _, hsome⟩ := ha
    simp only [cat_rss_entry] at hsome
    split at hsome
    · exact absurd hsome (by simp)
    · rw [Option.some_inj] at hsome
      subst hsome
      cases hc : contentOf (e.link.getD []) with
      | none => left; rfl
      | some c => right; exact ⟨c, rfl, rfl⟩
  · intro pages src cat links maxA a ha
    rw [scrape_website_articles, List.mem_filterMap] at ha
    obtain ⟨u, _, hsome⟩ := ha
    cases hp : pages u with
    | none =>
      simp only [site_article, hp] at hsome
      exact Option.noConfusion hsome
    | some pg =>
      simp only [site_article, hp] at hsome
      split at hsome
      · rw [Option.some_inj] at hsome
        subst hsome
        exact ⟨pg, hp, rfl⟩
      · exact absurd hsome (by simp)

/-- Witness for C4 at concrete bodies on both sides of the cap. -/
theorem c4_content_hard_cap_witness :
    capContent3000 (List.replicate 3001 'a')
      = List.replicate 3000 'a' ++ ("...".data)
    ∧ capContent3000 ("short body".data) = "short body".data := by
  constructor
  · have h := (c4_content_hard_cap.1 (List.replicate 3001 'a')
      (by rw [List.length_replicate]; omega)).1
    rw [h, List.take_replicate]
    congr 1
  · exact c4_content_hard_cap.2.1 ("short body".data) (by decide)

/-- A feed entry with a 2-character title, as the category RSS path sees
it. -/
def shortCatEntry : CatFeedEntry :=
  { title := some ("Hi".data), summary := none,
    link := some ("http://e.x/a".data), published := none, authorName := none }

/-- The same 2-character title as an entry of the rss pipeline. -/
def shortRssEntry : RssFeedEntry :=
  { title := "Hi".data, summary := [], description := [],
    link := "http://e.x/a".data, parsedDate := none, rawAuthor := none }

/-- **C5, counterexample.**  The category RSS path
(`category_news_scraper.py` lines 229-236) emits an article whose title has
only 2 characters, while the rss pipeline (`rss_news_scraper.py` lines
316-328) skips the same title for being shorter than its 6-character
minimum: no single minimum title length greater than 1 holds across all
acquisition paths, so titles "shorter than the minimum length" are not
always skipped. -/
theorem c5_min_title_counterexample :
    (scrape_rss_feed (fun _ => none) ("ex".data) ("Marketing".data)
        [shortCatEntry] 5).map CatArticle.title = [("Hi".data)]
    ∧ ("Hi".data).length = 2
    ∧ parse_feed_once (fun _ => []) ("ex".data) [shortRssEntry] 5 = [] := by
  decide

/-- **C5, amended.**  Per-path emission guards: the rss pipeline
(`parse_feed_once`, `scrape_listing_to_articles`) emits only articles with a
non-empty title of at least 6 characters and a non-empty URL; the category
RSS path guarantees only non-empty title and URL (no minimum length); the
category website path requires a title of more than 10 characters and a URL
drawn from the candidate links. -/
theorem c5_title_url_guards :
    (∀ (fc : Str → Str) (src : Str) (entries : List RssFeedEntry)
        (maxA : Nat) (a : NewsArticle),
        a ∈ parse_feed_once fc src entries maxA →
        a.title ≠ [] ∧ 6 ≤ a.title.length ∧ a.url ≠ [])
    ∧ (∀ (pages : Str → Option ListingPage) (src : Str) (maxA : Nat)
        (urls : List Str) (a : NewsArticle),
        a ∈ scrape_listing_loop pages src maxA urls →
        (∀ u, u ∈ urls → u ≠ []) →
        a.title ≠ [] ∧ 6 ≤ a.title.length ∧ a.url ≠ [])
    ∧ (∀ (contentOf : Str → Option Str) (src cat : Str)
        (entries : List CatFeedEntry) (maxA : Nat) (a : CatArticle),
        a ∈ scrape_rss_feed contentOf src cat entries maxA →
        a.title ≠ [] ∧ a.url ≠ [])
    ∧ (∀ (pages : Str → Option SitePage) (src cat : Str) (links : List Str)
        (maxA : Nat) (a : CatArticle),
        a ∈ scrape_website_articles pages src cat links maxA →
        a.title ≠ [] ∧ 11 ≤ a.title.length ∧ a.url ∈ links) := by
  refine ⟨?_, ?_, ?_, ?_⟩
  · intro fc src entries maxA a ha
    rw [parse_feed_once, List.mem_filterMap] at ha
    obtain ⟨e, _, hsome⟩ := ha
    simp only [parse_feed_entry] at hsome
    split at hsome
    · exact Option.noConfusion hsome
    · split at hsome
      · exact Option.noConfusion hsome
      · rw [Option.some_inj] at hsome
        subst hsome
        rename_i hguard hlink
        push_neg at hguard
        exact ⟨hguard.1, hguard.2, hlink⟩
  · intro pages src maxA urls a ha hurls
    obtain ⟨u, hu, hstep⟩ := scrape_listing_loop_mem pages src maxA urls a ha
    cases hp : pages u with
    | none =>
      simp only [scrape_listing_step, hp] at hstep
      exact Option.noConfusion hstep
    | some pg =>
      simp only [scrape_listing_step, hp] at hstep
      split at hstep
      · exact Option.noConfusion hstep
      · rw [Option.some_inj] at hstep
        subst hstep
        rename_i hguard
        push_neg at hguard
        refine ⟨hguard.1, hguard.2, ?_⟩
        show pyOr pg.canonical u ≠ []
        rw [pyOr]
        split
        · exact hurls u hu
        · assumption
  · intro contentOf src cat entries maxA a ha
    rw [scrape_rss_feed, List.mem_filterMap] at ha
    obtain ⟨e, _, hsome⟩ := ha
    simp only [cat_rss_entry] at hsome
    split at hsome
    · exact Option.noConfusion hsome
    · rw [Option.some_inj] at hsome
      subst hsome
      rename_i hguard
      push_neg at hguard
      exact ⟨hguard.1, hguard.2⟩
  · intro pages src cat links maxA a ha
    rw [scrape_website_articles, List.mem_filterMap] at ha
    obtain ⟨u, hu, hsome⟩ := ha
    cases hp : pages u with
    | none =>
      simp only [site_article, hp] at hsome
      exact Option.noConfusion hsome
    | some pg =>
      simp only [site_article, hp] at hsome
      split at hsome
      · rw [Option.some_inj] at hsome
        subst hsome
        rename_i hguard
        exact ⟨hguard.1, hguard.2, List.take_subset _ _ hu⟩
      · exact Option.noConfusion hsome

/-- An entry that passes every guard of the rss pipeline. -/
def goodRssEntry : RssFeedEntry :=
  { title := "Headline here".data, summary := [], description := [],
    link := "http://e.x/b".data, parsedDate := none, rawAuthor := none }

/-- The article `parse_feed_once` produces from `goodRssEntry`. -/
def goodRssArticle : NewsArticle :=
  { title := "Headline here".data, description := [],
    url := "http://e.x/b".data, source := "ex".data,
    published_date := none, author := none, content := [] }

/-- Witness for C5 (amended): the rss pipeline guard conclusions hold at a
concrete produced article. -/
theorem c5_title_url_guards_witness :
    goodRssArticle ∈ parse_feed_once (fun _ => []) ("ex".data) [goodRssEntry] 5
    ∧ goodRssArticle.title ≠ [] ∧ 6 ≤ goodRssArticle.title.length
      ∧ goodRssArticle.url ≠ [] := by
  have hmem : goodRssArticle ∈
      parse_feed_once (fun _ => []) ("ex".data) [goodRssEntry] 5 := by decide
  exact ⟨hmem, c5_title_url_guards.1 _ _ _ _ _ hmem⟩

/-- **C10.**  Every article emitted by the rss pipeline
(`parse_feed_once` and the loop of `scrape_listing_to_articles`) has a
description of at most 303 characters, and `clamp` at 300 behaves as
described: a stripped description longer than 300 characters becomes its
first 300 characters right-stripped with `...` appended; a stripped
description of at most 300 characters is stored unchanged. -/
theorem c10_description_cap :
    (∀ (fc : Str → Str) (src : Str) (entries : List RssFeedEntry)
        (maxA : Nat) (a : NewsArticle),
        a ∈ parse_feed_once fc src entries maxA →
        a.description.length ≤ 303)
    ∧ (∀ (pages : Str → Option ListingPage) (src : Str) (maxA : Nat)
        (urls : List Str) (a : NewsArticle),
        a ∈ scrape_listing_loop pages src maxA urls →
        a.description.length ≤ 303)
    ∧ (∀ s : Str, pystrip s = s → 300 < s.length →
        clamp s 300 = pyrstrip (s.take 300) ++ ("...".data))
    ∧ (∀ s : Str, pystrip s = s → s.length ≤ 300 → clamp s 300 = s) := by
  refine ⟨?_, ?_, ?_, ?_⟩
  · intro fc src entries maxA a ha
    rw [parse_feed_once, List.mem_filterMap] at ha
    obtain ⟨e, _, hsome⟩ := ha
    simp only [parse_feed_entry] at hsome
    split at hsome
    · exact Option.noConfusion hsome
    · split at hsome
      · exact Option.noConfusion hsome
      · rw [Option.some_inj] at hsome
        subst hsome
        show (if clean_text (pyOr e.summary e.description) ≠ [] then _ else
          clean_text (pyOr e.summary e.description)).length ≤ 303
        split
        · exact clamp_length_le _ 300
        · rename_i hd
          push_neg at hd
          rw [hd]
          simp
  · intro pages src maxA urls a ha
    obtain ⟨u, _, hstep⟩ := scrape_listing_loop_mem pages src maxA urls a ha
    cases hp : pages u with
    | none =>
      simp only [scrape_listing_step, hp] at hstep
      exact Option.noConfusion hstep
    | some pg =>
      simp only [scrape_listing_step, hp] at hstep
      split at hstep
      · exact Option.noConfusion hstep
      · rw [Option.some_inj] at hstep
        subst hstep
        exact clamp_length_le pg.description 300
  · intro s hs h
    simp only [clamp, pystrip] at *
    rw [hs]
    rw [if_neg (by omega)]
  · intro s hs h
    simp only [clamp, pystrip] at *
    rw [hs]
    rw [if_pos h]

set_option maxRecDepth 10000 in
/-- Witness for C10: the clamp clauses at concrete stripped descriptions on
both sides of the 300-character bound. -/
theorem c10_description_cap_witness :
    clamp (List.replicate 301 'b') 300
      = List.replicate 300 'b' ++ ("...".data)
    ∧ clamp ("ok".data) 300 = "ok".data := by
  constructor
  · have h := c10_description_cap.2.2.1 (List.replicate 301 'b')
      (by decide) (by rw [List.length_replicate]; omega)
    rw [h, List.take_replicate]
    have : pyrstrip (List.replicate (min 300 301) 'b')
        = List.replicate 300 'b' := by decide
    rw [this]
  · exact c10_description_cap.2.2.2 ("ok".data) (by decide) (by decide)

/-- A node of a parsed HTML document, in flat pre-order representation: the
`path` is the position in the tree (indices from the root), so `n` is a
descendant of `m` exactly when `m.path` is a proper prefix of `n.path`;
document order is the list order.  Text nodes carry `isText = true`, their
string in `content`, and empty `tag`/`attrs`. -/
structure DomNode where
  path : List Nat
  isText : Bool
  tag : Str
  attrs : List (Str × Str)
  content : Str
deriving DecidableEq, Repr

/-- A parsed document: its nodes in pre-order. -/
abbrev Document := List DomNode

/-- An element node. -/
def elemNode (path : List Nat) (tag : Str) (attrs : List (Str × Str)) : DomNode :=
  { path := path, isText := false, tag := tag, attrs := attrs, content := [] }

/-- `tag.get(key)`: first value for an attribute key. -/
def getAttr (attrs : List (Str × Str)) (k : Str) : Option Str :=
  (attrs.find? (fun p => p.1 == k)).map (fun p => p.2)

/-- Python `str.split()`: split on whitespace runs (fuel-structured; fuel
`s.length` suffices since every round consumes at least one character). -/
def splitWsF : Nat → Str → List Str
  | 0, s => if s = [] then [] else [s]
  | fuel + 1, s =>
    let s1 := s.dropWhile isPyWs
    if s1 = [] then []
    else s1.takeWhile (fun c => !isPyWs c)
      :: splitWsF fuel (s1.dropWhile (fun c => !isPyWs c))

def splitWs (s : Str) : List Str := splitWsF s.length s

/-- `site_url.rstrip("/")`. -/
def rstripSlash (s : Str) : Str := (s.reverse.dropWhile (fun c => c == '/')).reverse

/-- Split a string at the first occurrence of `pat`, dropping `pat`
(`none` when `pat` does not occur). -/
def breakOnSubstr (pat : Str) : Str → Option (Str × Str)
  | [] => none
  | c :: rest =>
    if pat.isPrefixOf (c :: rest) = true then
      some ([], (c :: rest).drop pat.length)
    else
      match breakOnSubstr pat rest with
      | some (pre, post) => some (c :: pre, post)
      | none => none

/-- The directory part of a URL path, per `urllib.parse.urljoin`'s merge
step for a plain relative reference: split on `/`, drop a trailing
non-directory segment, filter the redundant interior empty segments, and
re-join with a trailing `/`; `hasNetloc` restores the root `/` that
`urlunparse` adds.  Paths containing `.`/`..` segments are outside this
model's scope. -/
def dirOfPath (hasNetloc : Bool) (path : Str) : Str :=
  let parts := path.splitOn '/'
  let parts2 := match parts.getLast? with
    | some [] => parts
    | _ => parts.dropLast
  let keep := match parts2 with
    | [] => ([] : List Str)
    | p0 :: prest => p0 :: prest.filter (fun seg => !seg.isEmpty)
  match keep with
  | [] => if hasNetloc then ['/'] else []
  | _ => List.intercalate ['/'] keep ++ ['/']

/-- The resolved prefix `urllib.parse.urljoin(base, ref)` puts in front of a
plain relative `ref`: the base's scheme and netloc (its query and fragment
dropped) followed by the directory part of its path. -/
def urlResolvedDir (base : Str) : Str :=
  match breakOnSubstr ("://".data) base with
  | some (scheme, rest) =>
    let netloc := rest.takeWhile (fun c => !(c == '/' || c == '?' || c == '#'))
    let afterloc := rest.dropWhile (fun c => !(c == '/' || c == '?' || c == '#'))
    scheme ++ ("://".data) ++ netloc
      ++ dirOfPath true (afterloc.takeWhile (fun c => !(c == '?' || c == '#')))
  | none =>
    dirOfPath false (base.takeWhile (fun c => !(c == '?' || c == '#')))

/-- Modelled from `urllib.parse.urljoin` for the references this repository
resolves: a reference carrying a scheme (`://`) is returned unchanged; a
plain relative reference (no leading `/`, no query/fragment, no `.`/`..`
segments — in particular each of the six conventional feed suffixes) is
appended to the base's resolved directory, the base's own query and
fragment being dropped. -/
def urljoin_model (base ref : Str) : Str :=
  if containsSubstr ("://".data) ref then ref
  else urlResolvedDir base ++ ref

example : urljoin_model
    ("https://www.marketingbrew.com/?utm_source=chatgpt.com".data ++ ['/'])
    ("feed".data) = "https://www.marketingbrew.com/feed".data := by decide

example : urljoin_model ("https://example.com/a/b?q=1#frag".data ++ ['/'])
    ("rss.xml".data) = "https://example.com/a/rss.xml".data := by decide

example : urljoin_model ("https://example.com/a/b/".data ++ ['/'])
    ("feed".data) = "https://example.com/a/b/feed".data := by decide

/-- The fixed conventional feed path suffixes of `find_rss_links`. -/
def feedGuesses : List Str :=
  ["feed", "rss", "rss.xml", "feeds", "index.xml", "atom.xml"].map String.data

def addUniqueStr (acc : List Str) (u : Str) : List Str :=
  if u ∈ acc then acc else acc ++ [u]

/-- The `out, seen` deduplication loop closing both `find_rss_links`
variants: keep the first occurrence of each URL. -/
def dedupKeepFirst (l : List Str) : List Str := l.foldl addUniqueStr []

/-- `"rss" in (link.get("type") or "").lower()`. -/
def linkTypeRss (n : DomNode) : Bool :=
  containsSubstr ("rss".data) (toLowerStr ((getAttr n.attrs ("type".data)).getD []))

/-- The `rel` filter of `rss_news_scraper.py` line 154:
`rel=lambda x: x and "alternate" in x.lower()`; BeautifulSoup applies the
function to each token of the multi-valued `rel` attribute. -/
def relAlternate (n : DomNode) : Bool :=
  match getAttr n.attrs ("rel".data) with
  | some v => (splitWs v).any (fun item => containsSubstr ("alternate".data) (toLowerStr item))
  | none => false

/-- The shared body of both `find_rss_links` variants: collect the feed URLs
of the given `<link>` elements, fall back to the six conventional guesses,
and deduplicate preserving order. -/
def rssLinksFrom (site_url : Str) (links : List DomNode) : List Str :=
  let rss := links.filterMap (fun n =>
    match getAttr n.attrs ("href".data) with
    | some href =>
      if href ≠ [] ∧ linkTypeRss n = true then some (urljoin_model site_url href)
      else none
    | none => none)
  let withGuesses :=
    if rss = [] then
      feedGuesses.map (fun g => urljoin_model (rstripSlash site_url ++ ['/']) g)
    else rss
  dedupKeepFirst withGuesses

/-- `find_rss_links` of `category_news_scraper.py` (lines 167-189): iterate
over every `<link>` element. -/
def find_rss_links_cat (site_url : Str) (page : Document) : List Str :=
  rssLinksFrom site_url (page.filter (fun n => !n.isText && n.tag == ("link".data)))

/-- `find_rss_links` of `rss_news_scraper.py` (lines 149-167): iterate over
`<link rel=...alternate...>` elements only. -/
def find_rss_links_rss (site_url : Str) (page : Document) : List Str :=
  rssLinksFrom site_url
    (page.filter (fun n => !n.isText && n.tag == ("link".data) && relAlternate n))

lemma foldl_addUniqueStr_of_nodup :
    ∀ (l acc : List Str), l.Nodup → (∀ x ∈ l, x ∉ acc) →
      List.foldl addUniqueStr acc l = acc ++ l := by
  intro l
  induction l with
  | nil => intro acc _ _; simp
  | cons a t ih =>
    intro acc hnd hdisj
    rw [List.foldl_cons]
    have ha : a ∉ acc := hdisj a (List.mem_cons_self _ _)
    have hstep : addUniqueStr acc a = acc ++ [a] := by
      simp [addUniqueStr, ha]
    rw [hstep]
    rw [List.nodup_cons] at hnd
    rw [ih (acc ++ [a]) hnd.2 ?_]
    · simp
    · intro x hx
      rw [List.mem_append, List.mem_singleton]
      push_neg
      refine ⟨hdisj x (List.mem_cons_of_mem _ hx), ?_⟩
      intro hxa
      subst hxa
      exact hnd.1 hx

lemma dedupKeepFirst_of_nodup (l : List Str) (h : l.Nodup) :
    dedupKeepFirst l = l := by
  rw [dedupKeepFirst, foldl_addUniqueStr_of_nodup l [] h (by simp)]
  simp

lemma rssLinksFrom_guesses (site : Str) (links : List DomNode)
    (h : ∀ n ∈ links, linkTypeRss n = false) :
    rssLinksFrom site links
      = feedGuesses.map
          (fun g => urlResolvedDir (rstripSlash site ++ ['/']) ++ g) := by
  have hrss : links.filterMap (fun n =>
      match getAttr n.attrs ("href".data) with
      | some href =>
        if href ≠ [] ∧ linkTypeRss n = true then some (urljoin_model site href)
        else none
      | none => none) = [] := by
    rw [List.filterMap_eq_nil_iff]
    intro n hn
    cases hhref : getAttr n.attrs ("href".data) with
    | none => rfl
    | some href => simp [h n hn]
  rw [rssLinksFrom]
  simp only [hrss, reduceIte]
  have hmap : feedGuesses.map (fun g => urljoin_model (rstripSlash site ++ ['/']) g)
      = feedGuesses.map (fun g => urlResolvedDir (rstripSlash site ++ ['/']) ++ g) :=
    List.map_congr_left (fun g hg => by
      have hng : containsSubstr ("://".data) g = false := by
        fin_cases hg <;> decide
      simp [urljoin_model, hng])
  rw [hmap]
  refine dedupKeepFirst_of_nodup _ ?_
  have h1 : feedGuesses.Nodup := by decide
  exact h1.map (fun a b hab => List.append_cancel_left hab)

/-- **C7.**  For every seed page with zero `<link>` elements whose `type`
attribute contains `rss`, both `find_rss_links` variants return exactly the
six guessed conventional paths `feed`, `rss`, `rss.xml`, `feeds`,
`index.xml`, `atom.xml`, in that order, each resolved (with `urljoin`
semantics) against the base `site.rstrip('/') + '/'` — i.e. appended to
that base URL's resolved directory, its query/fragment dropped. -/
theorem c7_feed_path_guesses (site : Str) (page : Document)
    (h : ∀ n ∈ page, (!n.isText && n.tag == ("link".data)) = true →
        linkTypeRss n = false) :
    find_rss_links_cat site page
        = feedGuesses.map
            (fun g => urlResolvedDir (rstripSlash site ++ ['/']) ++ g)
    ∧ find_rss_links_rss site page
        = feedGuesses.map
            (fun g => urlResolvedDir (rstripSlash site ++ ['/']) ++ g) := by
  constructor
  · refine rssLinksFrom_guesses site _ (fun n hn => ?_)
    have hmf := List.mem_filter.mp hn
    exact h n hmf.1 hmf.2
  · refine rssLinksFrom_guesses site _ (fun n hn => ?_)
    have hmf := List.mem_filter.mp hn
    exact h n hmf.1 ((Bool.and_eq_true _ _).mp hmf.2).1

/-- A seed page with one stylesheet `<link>` (its `type` is `text/css`, so no
rss-typed link). -/
def cssOnlyPage : Document :=
  [elemNode [] ("html".data) [],
   elemNode [0] ("head".data) [],
   elemNode [0, 0] ("link".data)
     [("rel".data, "stylesheet".data), ("type".data, "text/css".data),
      ("href".data, "style.css".data)]]

/-- Witness for C7 at a concrete seed page and one of the repository's own
query-carrying seed URLs: the query string is dropped during resolution. -/
theorem c7_feed_path_guesses_witness :
    find_rss_links_cat
        ("https://www.marketingbrew.com/?utm_source=chatgpt.com".data)
        cssOnlyPage
      = ["https://www.marketingbrew.com/feed".data,
         "https://www.marketingbrew.com/rss".data,
         "https://www.marketingbrew.com/rss.xml".data,
         "https://www.marketingbrew.com/feeds".data,
         "https://www.marketingbrew.com/index.xml".data,
         "https://www.marketingbrew.com/atom.xml".data] := by
  have h := (c7_feed_path_guesses
    ("https://www.marketingbrew.com/?utm_source=chatgpt.com".data)
    cssOnlyPage (by decide)).1
  rw [h]
  decide

/-- `"\n\n".join(texts)`. -/
def joinBlank : List Str → Str
  | [] => []
  | [t] => t
  | t :: rest => t ++ '\n' :: '\n' :: joinBlank rest

/-- The best-candidate loop of `extract_main_content_generic`
(`rss_news_scraper.py` lines 204-211): keep the longest joined paragraph
text, strictly-greater replacement (first-found wins on ties).  A candidate
is represented by its list of qualifying paragraph texts (the output of
`visible_p_tags`). -/
def pickBestAux : Str × Nat → List (List Str) → Str × Nat
  | best, [] => best
  | best, pts :: rest =>
    if (joinBlank pts).length > best.2 then
      pickBestAux (joinBlank pts, (joinBlank pts).length) rest
    else pickBestAux best rest

/-- `extract_main_content_generic`'s return value (line 212):
`best_text.strip()`. -/
def extract_body_generic (cands : List (List Str)) : Str :=
  pystrip (pickBestAux ([], 0) cands).1

/-- The best-candidate loop of `extract_main_content`
(`category_news_scraper.py` lines 155-163), with its extra `if texts:`
guard. -/
def pickBestCatAux : Str × Nat → List (List Str) → Str × Nat
  | best, [] => best
  | best, pts :: rest =>
    if pts ≠ [] then
      if (joinBlank pts).length > best.2 then
        pickBestCatAux (joinBlank pts, (joinBlank pts).length) rest
      else pickBestCatAux best rest
    else pickBestCatAux best rest

/-- `extract_main_content`'s return value (line 165):
`clean_text(best_text.strip())`. -/
def extract_body_cat (cands : List (List Str)) : Str :=
  clean_text (pystrip (pickBestCatAux ([], 0) cands).1)

lemma pickBestCatAux_eq :
    ∀ (cands : List (List Str)) (best : Str × Nat),
      pickBestCatAux best cands = pickBestAux best cands := by
  intro cands
  induction cands with
  | nil => intro best; rfl
  | cons pts rest ih =>
    intro best
    by_cases hp : pts = []
    · subst hp
      show pickBestCatAux best rest
        = if (joinBlank []).length > best.2 then _ else pickBestAux best rest
      rw [if_neg (by simp [joinBlank])]
      exact ih best
    · show (if pts ≠ [] then _ else _) = _
      rw [if_pos hp]
      show (if (joinBlank pts).length > best.2 then _ else _)
        = if (joinBlank pts).length > best.2 then _ else _
      by_cases hgt : (joinBlank pts).length > best.2
      · rw [if_pos hgt, if_pos hgt, ih]
      · rw [if_neg hgt, if_neg hgt, ih]

lemma pylstrip_eq_of_pystrip_eq (t : Str) (h : pystrip t = t) :
    pylstrip t = t := by
  have hsub : List.Sublist (pylstrip t) t := List.dropWhile_sublist _
  refine hsub.eq_of_length ?_
  have h1 : (pylstrip t).length ≤ t.length := hsub.length_le
  have h2 : (pystrip t).length ≤ (pylstrip t).length := pyrstrip_length_le _
  rw [h] at h2
  omega

lemma pyrstrip_eq_of_pystrip_eq (t : Str) (h : pystrip t = t) :
    pyrstrip t = t := by
  have hl := pylstrip_eq_of_pystrip_eq t h
  rw [pystrip, hl] at h
  exact h

lemma pylstrip_append (t u : Str) (h : pylstrip t = t) (hne : t ≠ []) :
    pylstrip (t ++ u) = t ++ u := by
  rw [pylstrip] at h ⊢
  rw [List.dropWhile_append, h]
  have hne2 : t.isEmpty = false := by
    cases t with
    | nil => exact absurd rfl hne
    | cons c r => rfl
  simp [hne2]

lemma pyrstrip_append (t u : Str) (h : pyrstrip u = u) (hne : u ≠ []) :
    pyrstrip (t ++ u) = t ++ u := by
  have h2 : List.dropWhile isPyWs u.reverse = u.reverse := by
    rw [pyrstrip] at h
    have := congrArg List.reverse h
    rwa [List.reverse_reverse] at this
  have hne2 : (u.reverse).isEmpty = false := by
    cases hu : u.reverse with
    | nil =>
      exfalso
      apply hne
      have := congrArg List.reverse hu
      rwa [List.reverse_reverse] at this
    | cons c r => rfl
  rw [pyrstrip, List.reverse_append, List.dropWhile_append, h2]
  simp [hne2]

lemma joinBlank_ne_nil (pts : List Str) (hne : pts ≠ [])
    (h : ∀ t ∈ pts, t ≠ []) : joinBlank pts ≠ [] := by
  cases pts with
  | nil => exact absurd rfl hne
  | cons t rest =>
    cases rest with
    | nil => exact h t (List.mem_cons_self _ _)
    | cons t2 rest2 =>
      show t ++ '\n' :: '\n' :: joinBlank (t2 :: rest2) ≠ []
      simp

lemma pylstrip_joinBlank (pts : List Str)
    (h : ∀ t ∈ pts, t ≠ [] ∧ pystrip t = t) :
    pylstrip (joinBlank pts) = joinBlank pts := by
  cases pts with
  | nil => rfl
  | cons t rest =>
    have ht := h t (List.mem_cons_self _ _)
    cases rest with
    | nil => exact pylstrip_eq_of_pystrip_eq t ht.2
    | cons t2 rest2 =>
      show pylstrip (t ++ '\n' :: '\n' :: joinBlank (t2 :: rest2)) = _
      exact pylstrip_append t _ (pylstrip_eq_of_pystrip_eq t ht.2) ht.1

lemma pyrstrip_joinBlank :
    ∀ (pts : List Str), (∀ t ∈ pts, t ≠ [] ∧ pystrip t = t) → pts ≠ [] →
      pyrstrip (joinBlank pts) = joinBlank pts := by
  intro pts
  induction pts with
  | nil => intro _ hne; exact absurd rfl hne
  | cons t rest ih =>
    intro h _
    have ht := h t (List.mem_cons_self _ _)
    cases rest with
    | nil => exact pyrstrip_eq_of_pystrip_eq t ht.2
    | cons t2 rest2 =>
      have hrec := ih (fun x hx => h x (List.mem_cons_of_mem _ hx)) (by simp)
      have hjne : joinBlank (t2 :: rest2) ≠ [] :=
        joinBlank_ne_nil _ (by simp)
          (fun x hx => (h x (List.mem_cons_of_mem _ hx)).1)
      show pyrstrip (t ++ '\n' :: '\n' :: joinBlank (t2 :: rest2)) = _
      rw [show ('\n' :: '\n' :: joinBlank (t2 :: rest2) : Str)
          = ['\n', '\n'] ++ joinBlank (t2 :: rest2) from rfl]
      rw [pyrstrip_append t _ (pyrstrip_append _ _ hrec hjne) (by simp)]
      rfl

lemma pystrip_joinBlank (pts : List Str)
    (h : ∀ t ∈ pts, t ≠ [] ∧ pystrip t = t) :
    pystrip (joinBlank pts) = joinBlank pts := by
  cases hp : pts with
  | nil => rfl
  | cons t rest =>
    rw [← hp]
    rw [pystrip, pylstrip_joinBlank pts h,
      pyrstrip_joinBlank pts h (by rw [hp]; simp)]

lemma pickBestAux_spec :
    ∀ (cands : List (List Str)) (b : Str × Nat), b.2 = b.1.length →
    ((∀ pts ∈ cands, (joinBlank pts).length ≤ b.2) ∧ pickBestAux b cands = b)
    ∨ (∃ (i : Nat) (hi : i < cands.length),
        pickBestAux b cands
          = (joinBlank (cands.get ⟨i, hi⟩),
             (joinBlank (cands.get ⟨i, hi⟩)).length)
        ∧ b.2 < (joinBlank (cands.get ⟨i, hi⟩)).length
        ∧ (∀ (j : Nat) (hj : j < cands.length),
            (joinBlank (cands.get ⟨j, hj⟩)).length
              ≤ (joinBlank (cands.get ⟨i, hi⟩)).length)
        ∧ (∀ (j : Nat) (hj : j < cands.length), j < i →
            (joinBlank (cands.get ⟨j, hj⟩)).length
              < (joinBlank (cands.get ⟨i, hi⟩)).length)) := by
  intro cands
  induction cands with
  | nil =>
    intro b hb
    left
    exact ⟨by simp, rfl⟩
  | cons pts rest ih =>
    intro b hb
    show _ ∨ _
    by_cases hgt : (joinBlank pts).length > b.2
    · have hstep : pickBestAux b (pts :: rest)
          = pickBestAux (joinBlank pts, (joinBlank pts).length) rest := by
        show (if (joinBlank pts).length > b.2 then _ else _) = _
        rw [if_pos hgt]
      rcases ih (joinBlank pts, (joinBlank pts).length) rfl with
        ⟨hall, heq⟩ | ⟨i, hi, heq, hlt, hmax, hfirst⟩
      · right
        refine ⟨0, by simp, ?_, hgt, ?_, ?_⟩
        · rw [hstep, heq]
          rfl
        · intro j hj
          cases j with
          | zero => exact Nat.le_refl _
          | succ j0 =>
            have hj0 : j0 < rest.length := by simpa using hj
            have := hall (rest.get ⟨j0, hj0⟩) (rest.get_mem _ _)
            simpa using this
        · intro j hj hj0
          omega
      · right
        have hi2 : i + 1 < (pts :: rest).length := by simp; omega
        refine ⟨i + 1, hi2, ?_, ?_, ?_, ?_⟩
        · rw [hstep, heq]
          rfl
        · have : b.2 < (joinBlank pts).length := hgt
          simp only [List.get_cons_succ]
          omega
        · intro j hj
          simp only [List.get_cons_succ]
          cases j with
          | zero =>
            show (joinBlank pts).length ≤ _
            omega
          | succ j0 =>
            have hj0 : j0 < rest.length := by simpa using hj
            have := hmax j0 hj0
            simpa using this
        · intro j hj hji
          simp only [List.get_cons_succ]
          cases j with
          | zero =>
            show (joinBlank pts).length < _
            omega
          | succ j0 =>
            have hj0 : j0 < rest.length := by simpa using hj
            have := hfirst j0 hj0 (by omega)
            simpa using this
    · have hstep : pickBestAux b (pts :: rest) = pickBestAux b rest := by
        show (if (joinBlank pts).length > b.2 then _ else _) = _
        rw [if_neg hgt]
      push_neg at hgt
      rcases ih b hb with ⟨hall, heq⟩ | ⟨i, hi, heq, hlt, hmax, hfirst⟩
      · left
        refine ⟨?_, by rw [hstep, heq]⟩
        intro q hq
        rcases List.mem_cons.mp hq with rfl | hq2
        · exact hgt
        · exact hall q hq2
      · right
        have hi2 : i + 1 < (pts :: rest).length := by simp; omega
        refine ⟨i + 1, hi2, ?_, ?_, ?_, ?_⟩
        · rw [hstep, heq]
          rfl
        · simp only [List.get_cons_succ]
          omega
        · intro j hj
          simp only [List.get_cons_succ]
          cases j with
          | zero =>
            show (joinBlank pts).length ≤ _
            omega
          | succ j0 =>
            have hj0 : j0 < rest.length := by simpa using hj
            have := hmax j0 hj0
            simpa using this
        · intro j hj hji
          simp only [List.get_cons_succ]
          cases j with
          | zero =>
            show (joinBlank pts).length < _
            omega
          | succ j0 =>
            have hj0 : j0 < rest.length := by simpa using hj
            have := hfirst j0 hj0 (by omega)
            simpa using this

/-- The single candidate of the C3 counterexample: two qualifying
paragraphs. -/
def catJoinCands : List (List Str) :=
  [["one two three four five".data, "six seven eight nine ten".data]]

/-- **C3, counterexample.**  The category extractor
(`extract_main_content`, `category_news_scraper.py` line 165) applies
`clean_text` to the selected text, so the extracted body is NOT the
blank-line-joined paragraph text of the maximal candidate: the `\n\n`
separators collapse to single spaces.  The rss generic extractor does return
the blank-line join. -/
theorem c3_blank_join_counterexample :
    extract_body_cat catJoinCands
        ≠ joinBlank (catJoinCands.get ⟨0, by decide⟩)
    ∧ extract_body_cat catJoinCands
        = "one two three four five six seven eight nine ten".data
    ∧ extract_body_generic catJoinCands
        = joinBlank (catJoinCands.get ⟨0, by decide⟩) := by
  decide

/-- **C3, amended.**  For every non-empty candidate set (each candidate
given by its qualifying paragraph texts, which are non-empty and stripped,
as `get_text(" ", strip=True)` produces them): the rss generic extractor
returns exactly the blank-line join of the candidate whose joined text has
maximal length, the earlier candidate winning exact ties; the category
extractor returns the `clean_text` image of that same join (whitespace runs,
including the blank-line separators, collapsed). -/
theorem c3_longest_candidate_wins (cands : List (List Str))
    (hne : cands ≠ [])
    (hstripped : ∀ pts ∈ cands, ∀ t ∈ pts, t ≠ [] ∧ pystrip t = t) :
    ∃ (i : Nat) (hi : i < cands.length),
      extract_body_generic cands = joinBlank (cands.get ⟨i, hi⟩)
      ∧ (∀ (j : Nat) (hj : j < cands.length),
          (joinBlank (cands.get ⟨j, hj⟩)).length
            ≤ (joinBlank (cands.get ⟨i, hi⟩)).length)
      ∧ (∀ (j : Nat) (hj : j < cands.length), j < i →
          (joinBlank (cands.get ⟨j, hj⟩)).length
            < (joinBlank (cands.get ⟨i, hi⟩)).length)
      ∧ extract_body_cat cands = clean_text (joinBlank (cands.get ⟨i, hi⟩)) := by
  have hcat : extract_body_cat cands
      = clean_text (extract_body_generic cands) := by
    rw [extract_body_cat, extract_body_generic, pickBestCatAux_eq]
  rcases pickBestAux_spec cands ([], 0) rfl with
    ⟨hall, heq⟩ | ⟨i, hi, heq, _, hmax, hfirst⟩
  · have h0 : 0 < cands.length := by
      cases cands with
      | nil => exact absurd rfl hne
      | cons a l => simp
    have hjz : ∀ (j : Nat) (hj : j < cands.length),
        joinBlank (cands.get ⟨j, hj⟩) = [] := by
      intro j hj
      have := hall (cands.get ⟨j, hj⟩) (cands.get_mem _ _)
      exact List.length_eq_zero.mp (by omega)
    have hbody : extract_body_generic cands = [] := by
      rw [extract_body_generic, heq]
      rfl
    refine ⟨0, h0, ?_, ?_, ?_, ?_⟩
    · rw [hbody, hjz 0 h0]
    · intro j hj
      rw [hjz j hj, hjz 0 h0]
    · intro j hj hj0
      omega
    · rw [hcat, hbody, hjz 0 h0]
  · have hbody : extract_body_generic cands
        = joinBlank (cands.get ⟨i, hi⟩) := by
      rw [extract_body_generic, heq]
      exact pystrip_joinBlank _ (hstripped _ (cands.get_mem _ _))
    exact ⟨i, hi, hbody, hmax, hfirst, by rw [hcat, hbody]⟩

/-- Concrete candidate texts for the C3 witness: the second candidate's
joined text is longer. -/
def c3WitnessCands : List (List Str) :=
  [["short one here".data],
   ["a much longer paragraph of body text right here".data]]

/-- Witness for C3 (amended) at concrete candidates. -/
theorem c3_longest_candidate_wins_witness :
    ∃ (i : Nat) (hi : i < c3WitnessCands.length),
      extract_body_generic c3WitnessCands
        = joinBlank (c3WitnessCands.get ⟨i, hi⟩)
      ∧ (∀ (j : Nat) (hj : j < c3WitnessCands.length),
          (joinBlank (c3WitnessCands.get ⟨j, hj⟩)).length
            ≤ (joinBlank (c3WitnessCands.get ⟨i, hi⟩)).length)
      ∧ (∀ (j : Nat) (hj : j < c3WitnessCands.length), j < i →
          (joinBlank (c3WitnessCands.get ⟨j, hj⟩)).length
            < (joinBlank (c3WitnessCands.get ⟨i, hi⟩)).length)
      ∧ extract_body_cat c3WitnessCands
          = clean_text (joinBlank (c3WitnessCands.get ⟨i, hi⟩)) :=
  c3_longest_candidate_wins c3WitnessCands (by decide) (by decide)

/-- A parsed `datetime` value: calendar fields plus an optional UTC offset
in microseconds (`none` = naive).  Microsecond resolution covers `%z`'s
seconds and fractional offset forms. -/
structure PyDateTime where
  year : Nat
  month : Nat
  day : Nat
  hour : Nat
  minute : Nat
  second : Nat
  tzus : Option Int
deriving DecidableEq, Repr

def isLeapYear (y : Nat) : Bool :=
  y % 4 = 0 && (y % 100 ≠ 0 || y % 400 = 0)

def daysInMonth (y m : Nat) : Nat :=
  if m = 2 then (if isLeapYear y then 29 else 28)
  else if m = 4 ∨ m = 6 ∨ m = 9 ∨ m = 11 then 30 else 31

/-- The validation `datetime.__init__` performs on strptime's parsed fields
(field ranges the format regexes do not already force): year within
`MINYEAR..MAXYEAR` and day within the month. -/
def validDate (d : PyDateTime) : Bool :=
  1 ≤ d.year && d.year ≤ 9999 && 1 ≤ d.day && d.day ≤ daysInMonth d.year d.month

def finishDT (dt : PyDateTime) (tz : Option Int) : Option PyDateTime :=
  let dt2 : PyDateTime := { dt with tzus := tz }
  if validDate dt2 then some dt2 else none

def natOfDigits (s : Str) : Nat :=
  s.foldl (fun acc c => acc * 10 + (c.toNat - 48)) 0

/-- Exactly `k` digits. -/
def pDigitsExact (k : Nat) (s : Str) : Option (Nat × Str) :=
  let pre := s.take k
  if pre.length = k ∧ pre.all Char.isDigit then some (natOfDigits pre, s.drop k)
  else none

/-- A 1-or-2-digit numeric field with the value range `lo..hi`, preferring
the two-digit reading, as the `_strptime` regexes for `%m/%d/%H/%M/%S` do
(the leap-second values 60/61 admitted by `%S`'s regex are rejected by the
`datetime` constructor afterwards, so they are folded into the range check
here). -/
def p2or1 (lo hi : Nat) (s : Str) : Option (Nat × Str) :=
  match pDigitsExact 2 s with
  | some (v, r) =>
    if lo ≤ v ∧ v ≤ hi then some (v, r)
    else
      match pDigitsExact 1 s with
      | some (v1, r1) => if lo ≤ v1 ∧ v1 ≤ hi then some (v1, r1) else none
      | none => none
  | none =>
    match pDigitsExact 1 s with
    | some (v1, r1) => if lo ≤ v1 ∧ v1 ≤ hi then some (v1, r1) else none
    | none => none

/-- A literal format character; `strptime` compiles its pattern with
`IGNORECASE`, so letters match case-insensitively. -/
def pCharCI (c : Char) (s : Str) : Option Str :=
  match s with
  | [] => none
  | x :: r => if x.toLower = c.toLower then some r else none

/-- A whitespace run in the format: matches one or more whitespace
characters. -/
def pWs1 (s : Str) : Option Str :=
  match s with
  | [] => none
  | c :: r => if isPyWs c then some (r.dropWhile isPyWs) else none

/-- `%a`: an abbreviated weekday name, case-insensitive; the parsed value is
not used by `strptime` when a full date is present. -/
def pWeekday (s : Str) : Option Str :=
  if (s.take 3).length = 3
      ∧ toLowerStr (s.take 3) ∈
        (["mon", "tue", "wed", "thu", "fri", "sat", "sun"].map String.data)
  then some (s.drop 3) else none

/-- `%b`: an abbreviated month name, case-insensitive. -/
def pMonthName (s : Str) : Option (Nat × Str) :=
  match (["jan", "feb", "mar", "apr", "may", "jun", "jul", "aug", "sep",
          "oct", "nov", "dec"].map String.data).findIdx?
      (fun m => m == toLowerStr (s.take 3)) with
  | some i => some (i + 1, s.drop 3)
  | none => none

/-- Build the signed `%z` offset (in microseconds) from its parsed
components, enforcing `timezone`'s bound: strictly shorter than one day. -/
def mkTz (sign : Char) (h m sec frac : Nat) (r : Str) : Option (Int × Str) :=
  let total : Nat := (h * 3600 + m * 60 + sec) * 1000000 + frac
  if total < 86400000000 then
    some ((if sign = '-' then -(total : Int) else (total : Int)), r)
  else none

/-- `%z`, following CPython `_strptime`'s regex
`[+-]\d\d:?[0-5]\d(:?[0-5]\d(\.\d{1,6})?)?|(?-i:Z)` and its conversion:
`Z` (exact case) gives zero; otherwise a sign, two hour digits (any), an
optional colon, two minute digits `00..59`, then an optional seconds group
(`00..59`, with an optional `.`-fraction of 1-6 digits); the colon before
the seconds must be used consistently with the first colon (a mismatch
raises `ValueError`, failing the format); an unmatchable seconds group is
simply left unconsumed.  The result is the signed offset in microseconds,
bounded strictly below one day. -/
def pTzOffset (s : Str) : Option (Int × Str) :=
  match s with
  | 'Z' :: r => some (0, r)
  | c :: rest =>
    if c = '+' ∨ c = '-' then
      match pDigitsExact 2 rest with
      | none => none
      | some (h, r1) =>
        let colon1 : Bool := r1.head? == some ':'
        match pDigitsExact 2 (if colon1 then r1.drop 1 else r1) with
        | none => none
        | some (m, r2) =>
          if 59 < m then none
          else
            let colon2 : Bool := r2.head? == some ':'
            match pDigitsExact 2 (if colon2 then r2.drop 1 else r2) with
            | none => mkTz c h m 0 0 r2
            | some (sec, r3) =>
              if 59 < sec then mkTz c h m 0 0 r2
              else if colon2 ≠ colon1 then none
              else
                match r3 with
                | '.' :: r4 =>
                  let ds := (r4.takeWhile Char.isDigit).take 6
                  if ds = [] then mkTz c h m sec 0 r3
                  else
                    mkTz c h m sec (natOfDigits ds * 10 ^ (6 - ds.length))
                      (r4.drop ds.length)
                | _ => mkTz c h m sec 0 r3
    else none
  | [] => none

/-- `%Z`: a timezone name; modelled with the locale-independent names `UTC`
and `GMT` (case-insensitive).  `strptime` parses the name but leaves the
resulting datetime naive. -/
def pTzName (s : Str) : Option Str :=
  if (s.take 3).length = 3
      ∧ toLowerStr (s.take 3) ∈ (["utc", "gmt"].map String.data)
  then some (s.drop 3) else none

/-- The shared `%Y-%m-%dT%H:%M:%S` prefix of the first three formats; the
result carries a placeholder naive offset. -/
def pDateTimeCore (s : Str) : Option (PyDateTime × Str) :=
  match pDigitsExact 4 s with
  | none => none
  | some (y, s) =>
    match pCharCI '-' s with
    | none => none
    | some s =>
      match p2or1 1 12 s with
      | none => none
      | some (mo, s) =>
        match pCharCI '-' s with
        | none => none
        | some s =>
          match p2or1 1 31 s with
          | none => none
          | some (d, s) =>
            match pCharCI 'T' s with
            | none => none
            | some s =>
              match p2or1 0 23 s with
              | none => none
              | some (h, s) =>
                match pCharCI ':' s with
                | none => none
                | some s =>
                  match p2or1 0 59 s with
                  | none => none
                  | some (mi, s) =>
                    match pCharCI ':' s with
                    | none => none
                    | some s =>
                      match p2or1 0 59 s with
                      | none => none
                      | some (se, s) =>
                        some ({ year := y, month := mo, day := d, hour := h,
                                minute := mi, second := se, tzus := none }, s)

/-- `datetime.strptime(·, "%Y-%m-%dT%H:%M:%S%z")` as a full-string parser. -/
def pFmt1 (s : Str) : Option PyDateTime :=
  match pDateTimeCore s with
  | none => none
  | some (dt, s) =>
    match pTzOffset s with
    | none => none
    | some (off, s) => if s = [] then finishDT dt (some off) else none

/-- `datetime.strptime(·, "%Y-%m-%dT%H:%M:%S%Z")`. -/
def pFmt2 (s : Str) : Option PyDateTime :=
  match pDateTimeCore s with
  | none => none
  | some (dt, s) =>
    match pTzName s with
    | none => none
    | some s => if s = [] then finishDT dt none else none

/-- `datetime.strptime(·, "%Y-%m-%dT%H:%M:%S")`. -/
def pFmt3 (s : Str) : Option PyDateTime :=
  match pDateTimeCore s with
  | none => none
  | some (dt, s) => if s = [] then finishDT dt none else none

/-- The shared `%a, %d %b %Y %H:%M:%S ` prefix of the RFC-822 style
formats. -/
def pRfc822Core (s : Str) : Option (PyDateTime × Str) :=
  match pWeekday s with
  | none => none
  | some s =>
    match pCharCI ',' s with
    | none => none
    | some s =>
      match pWs1 s with
      | none => none
      | some s =>
        match p2or1 1 31 s with
        | none => none
        | some (d, s) =>
          match pWs1 s with
          | none => none
          | some s =>
            match pMonthName s with
            | none => none
            | some (mo, s) =>
              match pWs1 s with
              | none => none
              | some s =>
                match pDigitsExact 4 s with
                | none => none
                | some (y, s) =>
                  match pWs1 s with
                  | none => none
                  | some s =>
                    match p2or1 0 23 s with
                    | none => none
                    | some (h, s) =>
                      match pCharCI ':' s with
                      | none => none
                      | some s =>
                        match p2or1 0 59 s with
                        | none => none
                        | some (mi, s) =>
                          match pCharCI ':' s with
                          | none => none
                          | some s =>
                            match p2or1 0 59 s with
                            | none => none
                            | some (se, s) =>
                              match pWs1 s with
                              | none => none
                              | some s =>
                                some ({ year := y, month := mo, day := d,
                                        hour := h, minute := mi, second := se,
                                        tzus := none }, s)

/-- `datetime.strptime(·, "%a, %d %b %Y %H:%M:%S %z")`. -/
def pFmt4 (s : Str) : Option PyDateTime :=
  match pRfc822Core s with
  | none => none
  | some (dt, s) =>
    match pTzOffset s with
    | none => none
    | some (off, s) => if s = [] then finishDT dt (some off) else none

/-- `datetime.strptime(·, "%a, %d %b %Y %H:%M:%S %Z")`. -/
def pFmt5 (s : Str) : Option PyDateTime :=
  match pRfc822Core s with
  | none => none
  | some (dt, s) =>
    match pTzName s with
    | none => none
    | some s => if s = [] then finishDT dt none else none

/-- `datetime.strptime(·, "%Y-%m-%d")`. -/
def pFmt6 (s : Str) : Option PyDateTime :=
  match pDigitsExact 4 s with
  | none => none
  | some (y, s) =>
    match pCharCI '-' s with
    | none => none
    | some s =>
      match p2or1 1 12 s with
      | none => none
      | some (mo, s) =>
        match pCharCI '-' s with
        | none => none
        | some s =>
          match p2or1 1 31 s with
          | none => none
          | some (d, s) =>
            if s = [] then
              finishDT { year := y, month := mo, day := d, hour := 0,
                         minute := 0, second := 0, tzus := none } none
            else none

/-- The fixed ordered format list of `iso_from_any`
(`rss_news_scraper.py` lines 63-65). -/
def isoFormats : List (Str → Option PyDateTime) :=
  [pFmt1, pFmt2, pFmt3, pFmt4, pFmt5, pFmt6]

def pad2 (n : Nat) : Str := (if n < 10 then ['0'] else []) ++ Nat.toDigits 10 n

def pad4 (n : Nat) : Str :=
  (if n < 10 then ['0', '0', '0'] else if n < 100 then ['0', '0']
   else if n < 1000 then ['0'] else []) ++ Nat.toDigits 10 n

def pad6 (n : Nat) : Str :=
  List.replicate (6 - (Nat.toDigits 10 n).length) '0' ++ Nat.toDigits 10 n

/-- `datetime.isoformat()` for a strptime result (the datetime's own
microseconds are always zero): `YYYY-MM-DDTHH:MM:SS`, and for aware values
the offset as `±HH:MM`, extended by `:SS` when the offset has seconds and by
`.ffffff` when it has microseconds, as `datetime._format_offset` renders
it. -/
def isoformat (d : PyDateTime) : Str :=
  pad4 d.year ++ ['-'] ++ pad2 d.month ++ ['-'] ++ pad2 d.day ++ ['T']
    ++ pad2 d.hour ++ [':'] ++ pad2 d.minute ++ [':'] ++ pad2 d.second
    ++ (match d.tzus with
        | none => []
        | some off =>
          let a := off.natAbs
          let us := a % 1000000
          let totsec := a / 1000000
          (if off < 0 then ['-'] else ['+'])
            ++ pad2 (totsec / 3600) ++ [':'] ++ pad2 ((totsec % 3600) / 60)
            ++ (if totsec % 60 ≠ 0 ∨ us ≠ 0 then
                  [':'] ++ pad2 (totsec % 60)
                    ++ (if us ≠ 0 then ['.'] ++ pad6 us else [])
                else []))

/-- The try-each-format loop of `iso_from_any` (lines 63-69): return the
`isoformat` rendering of the first format that parses. -/
def tryFormats : List (Str → Option PyDateTime) → Str → Option Str
  | [], _ => none
  | f :: rest, s =>
    match f s with
    | some d => some (isoformat d)
    | none => tryFormats rest s

/-- Truthiness of
`re.match(r"(\d{4}-\d{2}-\d{2}T\d{2}:\d{2}:\d{2})(Z|[+\-]\d{2}:\d{2})?", s)`
(line 70): the match is anchored at the start and the second group is
optional, so the regex matches exactly when the first 19 characters have the
ISO shape. -/
def isoLikeMatch (s : Str) : Bool :=
  match s with
  | c1 :: c2 :: c3 :: c4 :: '-' :: c5 :: c6 :: '-' :: c7 :: c8 :: 'T'
      :: c9 :: c10 :: ':' :: c11 :: c12 :: ':' :: c13 :: c14 :: _ =>
    [c1, c2, c3, c4, c5, c6, c7, c8, c9, c10, c11, c12, c13, c14].all
      Char.isDigit
  | _ => false

/-- `iso_from_any` (`rss_news_scraper.py` lines 59-75): empty (or missing)
input gives `None`; otherwise try the six formats in order; on full failure,
if the ISO-prefix regex matches, return the whole input with every `Z`
replaced by `+00:00`; otherwise `None`.  No branch raises. -/
def iso_from_any (s : Str) : Option Str :=
  if s = [] then none
  else
    match tryFormats isoFormats s with
    | some r => some r
    | none =>
      if isoLikeMatch s then some (replaceAll ['Z'] ("+00:00".data) s)
      else none

example : iso_from_any ("2023-01-02".data)
    = some ("2023-01-02T00:00:00".data) := by decide

example : iso_from_any ("Mon, 02 Jan 2023 03:04:05 +0000".data)
    = some ("2023-01-02T03:04:05+00:00".data) := by decide

example : iso_from_any ("2023-01-02T03:04:05+0199".data)
    = some ("2023-01-02T03:04:05+0199".data) := by decide

example : iso_from_any ("Mon, 02 Jan 2023 03:04:05 +01:00:30".data)
    = some ("2023-01-02T03:04:05+01:00:30".data) := by decide

example : iso_from_any ("2023-01-02T03:04:05+013030.5".data)
    = some ("2023-01-02T03:04:05+01:30:30.500000".data) := by decide

example : iso_from_any ("2023-01-02T03:04:05+01:3030".data)
    = some ("2023-01-02T03:04:05+01:3030".data) := by decide

def isoDatePat : Str → Bool
  | [a, b, c, d, '-', e, f, '-', g, h] =>
    [a, b, c, d, e, f, g, h].all Char.isDigit
  | _ => false

def isoTimePat : Str → Bool
  | [h1, h2, ':', m1, m2, ':', s1, s2] =>
    [h1, h2, m1, m2, s1, s2].all Char.isDigit
  | _ => false

def isoOffsetPat : Str → Bool
  | ['Z'] => true
  | [c, o1, o2, ':', m1, m2] =>
    (c == '+' || c == '-') && [o1, o2, m1, m2].all Char.isDigit
  | _ => false

/-- Modelled from the spec: a recogniser for the ISO-8601 datetime string
shapes this pipeline deals in — a date, optionally followed by `T` and a
time, optionally followed by a UTC offset — covering the whole string.  Used
only to state whether a result "is an ISO-8601 string". -/
def isIso8601Full (s : Str) : Bool :=
  isoDatePat s
  || (isoDatePat (s.take 10) && s.get? 10 == some 'T'
      && isoTimePat ((s.drop 11).take 8)
      && (s.drop 19 = [] || isoOffsetPat (s.drop 19)))

lemma tryFormats_first :
    ∀ (fs : List (Str → Option PyDateTime)) (s : Str) (i : Nat)
      (hi : i < fs.length) (d : PyDateTime),
      (∀ (j : Nat) (hj : j < fs.length), j < i → (fs.get ⟨j, hj⟩) s = none) →
      (fs.get ⟨i, hi⟩) s = some d →
      tryFormats fs s = some (isoformat d)
  | [], s, i, hi, d, _, _ => by simp at hi
  | f :: rest, s, 0, hi, d, _, hsome => by
    simp only [List.get] at hsome
    simp [tryFormats, hsome]
  | f :: rest, s, i + 1, hi, d, hprev, hsome => by
    have hf : f s = none := by
      have := hprev 0 (by simp) (Nat.succ_pos i)
      simpa using this
    have hi2 : i < rest.length := by simpa using hi
    have ih := tryFormats_first rest s i hi2 d
      (fun j hj hji => by
        have := hprev (j + 1) (by simpa using Nat.succ_lt_succ hj)
          (Nat.succ_lt_succ hji)
        simpa using this)
      (by simpa using hsome)
    simp [tryFormats, hf, ih]

lemma tryFormats_none :
    ∀ (fs : List (Str → Option PyDateTime)) (s : Str),
      (∀ f ∈ fs, f s = none) → tryFormats fs s = none
  | [], s, _ => rfl
  | f :: rest, s, h => by
    have hf : f s = none := h f (List.mem_cons_self _ _)
    have ih := tryFormats_none rest s (fun g hg => h g (List.mem_cons_of_mem _ hg))
    simp [tryFormats, hf, ih]

/-- **C8, counterexample.**  When every format fails but the ISO-prefix
regex matches, `iso_from_any` returns the WHOLE input (with `Z` replaced),
trailing text included — not an ISO-8601 string. -/
theorem c8_trailing_text_counterexample :
    iso_from_any ("2023-01-02T03:04:05 blah".data)
        = some ("2023-01-02T03:04:05 blah".data)
    ∧ isIso8601Full ("2023-01-02T03:04:05 blah".data) = false := by
  decide

/-- **C8, amended.**  `iso_from_any` attempts the fixed ordered format list
and returns the `isoformat` rendering of the first format that parses; if
all formats fail it applies the ISO-looking-prefix regex and, on a match,
returns the entire input with every `Z` replaced by `+00:00` (which is an
ISO-8601 string only when the input itself was one — trailing text is
preserved); if the regex fails too, the result is `None`; empty input gives
`None`; no branch raises. -/
theorem c8_iso_from_any_normalisation :
    (∀ (s : Str) (i : Nat) (hi : i < isoFormats.length) (d : PyDateTime),
        s ≠ [] →
        (∀ (j : Nat) (hj : j < isoFormats.length), j < i →
          (isoFormats.get ⟨j, hj⟩) s = none) →
        (isoFormats.get ⟨i, hi⟩) s = some d →
        iso_from_any s = some (isoformat d))
    ∧ (∀ s : Str, s ≠ [] → (∀ f ∈ isoFormats, f s = none) →
        iso_from_any s
          = if isoLikeMatch s then some (replaceAll ['Z'] ("+00:00".data) s)
            else none)
    ∧ iso_from_any [] = none := by
  refine ⟨?_, ?_, rfl⟩
  · intro s i hi d hne hprev hsome
    have h := tryFormats_first isoFormats s i hi d hprev hsome
    rw [iso_from_any, if_neg hne, h]
  · intro s hne hall
    have h := tryFormats_none isoFormats s hall
    rw [iso_from_any, if_neg hne, h]

/-- Witness for C8 (amended): `2023-01-02` fails the first five formats and
parses with the sixth, yielding its `isoformat`. -/
theorem c8_iso_from_any_normalisation_witness :
    iso_from_any ("2023-01-02".data)
      = some (isoformat
          { year := 2023, month := 1, day := 2, hour := 0, minute := 0,
            second := 0, tzus := none }) :=
  c8_iso_from_any_normalisation.1 ("2023-01-02".data) 5 (by decide)
    { year := 2023, month := 1, day := 2, hour := 0, minute := 0,
      second := 0, tzus := none }
    (by decide)
    (fun j hj hji => by
      interval_cases j
      · show pFmt1 ("2023-01-02".data) = none
        decide
      · show pFmt2 ("2023-01-02".data) = none
        decide
      · show pFmt3 ("2023-01-02".data) = none
        decide
      · show pFmt4 ("2023-01-02".data) = none
        decide
      · show pFmt5 ("2023-01-02".data) = none
        decide)
    (by decide)

/-- The outcome of one HTTP GET: a response with a status code and the
parsed document, or a network/transport error (exception). -/
inductive FetchOutcome where
  | response (status : Nat) (page : Document)
  | transportError
deriving DecidableEq, Repr

/-- `get_soup` of `rss_news_scraper.py` (lines 77-86): one GET (only the
first element of the attempt stream is consulted); any status `>= 400`
yields `None`, an exception yields `None`, otherwise the parsed soup. -/
def get_soup_rss (attempts : Nat → FetchOutcome) : Option Document :=
  match attempts 0 with
  | FetchOutcome.transportError => none
  | FetchOutcome.response st page => if 400 ≤ st then none else some page

/-- `get_soup` of `category_news_scraper.py` (lines 58-66): one GET;
`response.raise_for_status()` raises (caught, `None`) exactly for statuses
in `400..599`; an exception yields `None`; otherwise the parsed soup. -/
def get_soup_cat (attempts : Nat → FetchOutcome) : Option Document :=
  match attempts 0 with
  | FetchOutcome.transportError => none
  | FetchOutcome.response st page =>
    if 400 ≤ st ∧ st < 600 then none else some page

lemma scrape_listing_loop_zero (pages : Str → Option ListingPage) (src : Str)
    (urls : List Str) : scrape_listing_loop pages src 0 urls = [] := by
  cases urls with
  | nil => rfl
  | cons u rest => simp [scrape_listing_loop]

/-- **C9, counterexample.**  The category `get_soup` classifies errors via
`requests.raise_for_status()`, which raises only for statuses in
`400..599`: a response with status 600 (outside the HTTP ranges but
deliverable by a server) is passed through as content instead of returning
`None`, so "HTTP status >= 400 returns the no-content result" fails for the
category variant. -/
theorem c9_status600_counterexample :
    get_soup_cat (fun _ => FetchOutcome.response 600 cssOnlyPage)
        = some cssOnlyPage
    ∧ get_soup_rss (fun _ => FetchOutcome.response 600 cssOnlyPage)
        = none := by
  constructor
  · rfl
  · rfl

/-- **C9, amended.**  Fetch-error handling: the rss `get_soup` returns
`None` for every status `>= 400`; the category `get_soup` returns `None`
exactly for statuses in `400..599` (out-of-range statuses `>= 600` are
passed through); both return `None` on a network/transport error and never
raise; both consult only the first attempt (no retries); and the callers
treat a `None` fetch as zero articles for that unit and continue with the
remaining units. -/
theorem c9_fetch_error_handling :
    (∀ (att : Nat → FetchOutcome) (st : Nat) (page : Document),
        att 0 = FetchOutcome.response st page → 400 ≤ st →
        get_soup_rss att = none)
    ∧ (∀ (att : Nat → FetchOutcome) (st : Nat) (page : Document),
        att 0 = FetchOutcome.response st page → 400 ≤ st → st < 600 →
        get_soup_cat att = none)
    ∧ (∀ att : Nat → FetchOutcome, att 0 = FetchOutcome.transportError →
        get_soup_rss att = none ∧ get_soup_cat att = none)
    ∧ (∀ a b : Nat → FetchOutcome, a 0 = b 0 →
        get_soup_rss a = get_soup_rss b ∧ get_soup_cat a = get_soup_cat b)
    ∧ (∀ (pages : Str → Option SitePage) (src cat u : Str)
        (rest : List Str) (maxA : Nat), pages u = none →
        scrape_website_articles pages src cat (u :: rest) (maxA + 1)
          = scrape_website_articles pages src cat rest maxA)
    ∧ (∀ (pages : Str → Option ListingPage) (src : Str) (maxA : Nat)
        (u : Str) (rest : List Str), pages u = none →
        scrape_listing_loop pages src maxA (u :: rest)
          = scrape_listing_loop pages src maxA rest) := by
  refine ⟨?_, ?_, ?_, ?_, ?_, ?_⟩
  · intro att st page h hst
    rw [get_soup_rss, h]
    show (if 400 ≤ st then none else some page : Option Document) = none
    rw [if_pos hst]
  · intro att st page h hst hst2
    rw [get_soup_cat, h]
    show (if 400 ≤ st ∧ st < 600 then none else some page : Option Document) = none
    rw [if_pos ⟨hst, hst2⟩]
  · intro att h
    constructor
    · rw [get_soup_rss, h]
    · rw [get_soup_cat, h]
  · intro a b h
    constructor
    · rw [get_soup_rss, get_soup_rss, h]
    · rw [get_soup_cat, get_soup_cat, h]
  · intro pages src cat u rest maxA h
    rw [scrape_website_articles, scrape_website_articles,
      List.take_succ_cons, List.filterMap_cons]
    have hstep : site_article pages src cat u = none := by
      rw [site_article, h]
    rw [hstep]
  · intro pages src maxA u rest h
    by_cases h0 : maxA = 0
    · subst h0
      rw [scrape_listing_loop_zero, scrape_listing_loop_zero]
    · have hstep : scrape_listing_step pages src u = none := by
        rw [scrape_listing_step, h]
      rw [scrape_listing_loop, if_neg h0, hstep]

/-- Witness for C9 (amended) at concrete attempt streams and a concrete
skipped unit. -/
theorem c9_fetch_error_handling_witness :
    get_soup_rss (fun _ => FetchOutcome.response 404 []) = none
    ∧ get_soup_cat (fun _ => FetchOutcome.response 500 []) = none
    ∧ scrape_website_articles (fun _ => none) ("s".data) ("c".data)
        [("http://dead.x".data)] 1 = [] := by
  refine ⟨?_, ?_, ?_⟩
  · exact c9_fetch_error_handling.1 _ 404 [] rfl (by omega)
  · exact c9_fetch_error_handling.2.1 _ 500 [] rfl (by omega) (by omega)
  · have h := c9_fetch_error_handling.2.2.2.2.1 (fun _ => none)
      ("s".data) ("c".data) ("http://dead.x".data) [] 0 rfl
    rw [h]
    rfl

end NewsScrapper
